import Mathlib

/-!
Verification of the Stock-Manager inventory/order subsystem.

This file shallowly embeds the stock ledger, order engine and approval/GRN
workflow of the repository (server/storage.ts as `DatabaseStorage`, and the
`POST /api/products/:id/stock` route in server/routes.ts) and proves the
spec's testable properties against the embedding.

Conventions of the embedding:
- database tables are in-memory lists; rows keyed by their primary key are
  association lists `List (String × Row)` (ids are unique, so updates by id
  replace the first match);
- JavaScript numbers holding stock counters are `Int` (the schema declares
  them as SQL integers);
- `Date.now()` is an explicit `Nat` millisecond-timestamp parameter;
- generated ids (`gen_random_uuid()`) are explicit `String` parameters;
- timestamps stored on rows are the `Nat` tick of the writing call;
- descriptive columns that no verified property mentions (names, prices,
  SKUs, ...) are omitted from the row structures.
-/

namespace StockManager

/-- Product ledger counters (`products` table): the three integer counters
`stockTotal`, `stockUsed`, `stockAvailable` of schema.ts. -/
structure ProductRec where
  stockTotal : Int
  stockUsed : Int
  stockAvailable : Int
deriving DecidableEq

/-- Insert payload for a product (`insertProductSchema`): `stockTotal`,
`stockUsed` and `stockAvailable` are all optional (the columns carry
database defaults of 0). -/
structure InsertProduct where
  stockTotal : Option Int
  stockUsed : Option Int
  stockAvailable : Option Int
deriving DecidableEq

/-- Stock movement audit row (`stockMovements` table). -/
structure MovementRec where
  productId : String
  action : String
  quantity : Int
  previousStock : Int
  newStock : Int
  reason : String
  orderId : Option String
deriving DecidableEq

/-- Order row (`orders` table) with the approval metadata columns that
`DatabaseStorage` writes (`approvalStatus`, `approvalRequestedAt/By`,
`approvalNotes`). -/
structure OrderRec where
  orderNumber : String
  customerName : String
  status : String
  approvalStatus : Option String
  approvalRequestedAt : Option Nat
  approvalRequestedBy : Option String
  approvalNotes : Option String
deriving DecidableEq

/-- Insert payload for an order (`insertOrderSchema`): `status` is optional
(column default "pending"); `customerName` is a required column. -/
structure InsertOrder where
  customerName : String
  status : Option String
deriving DecidableEq

/-- Insert payload for an order line item (`insertOrderItemSchema`). -/
structure InsertOrderItem where
  productId : String
  quantity : Int
deriving DecidableEq

/-- Order line item row (`orderItems` table). -/
structure OrderItemRec where
  orderId : String
  productId : String
  quantity : Int
deriving DecidableEq

/-- GRN header payload (`Omit<InsertGrn, "orderId">`); representative
header fields stand for the vendor/bill/PO metadata block. -/
structure GrnHeader where
  vendorName : Option String
  remarks : Option String
deriving DecidableEq

/-- GRN row (`grns` table): at most one per order by the upsert discipline. -/
structure GrnRec where
  id : String
  orderId : String
  vendorName : Option String
  remarks : Option String
deriving DecidableEq

/-- GRN item insert payload (`InsertGrnItem`); representative detail fields. -/
structure InsertGrnItem where
  partNo : Option String
  quantity : Option Int
deriving DecidableEq

/-- GRN item row (`grnItems` table), owned by its GRN via `grnId`. -/
structure GrnItemRec where
  grnId : String
  partNo : Option String
  quantity : Option Int
deriving DecidableEq

/-- The relational store: one field per table this subsystem touches. -/
structure DB where
  products : List (String × ProductRec)
  orders : List (String × OrderRec)
  orderItems : List OrderItemRec
  stockMovements : List MovementRec
  grns : List GrnRec
  grnItems : List GrnItemRec
deriving DecidableEq

/-- A store with every table empty. -/
def emptyDB : DB :=
  { products := [], orders := [], orderItems := [], stockMovements := []
    grns := [], grnItems := [] }

/-- `SELECT ... WHERE id = key LIMIT 1` over an association list. -/
def lookupA {α : Type} : List (String × α) → String → Option α
  | [], _ => none
  | (k, v) :: rest, key => if k = key then some v else lookupA rest key

/-- `UPDATE ... WHERE id = key` over an association list: replace the first
(= unique, ids being primary keys) matching row; no-op when absent. -/
def updateA {α : Type} : List (String × α) → String → α → List (String × α)
  | [], _, _ => []
  | (k, v) :: rest, key, newV =>
    if k = key then (k, newV) :: rest else (k, v) :: updateA rest key newV

/-- JavaScript `x || 0` on an optional numeric field: `undefined` and `0`
are both falsy, everything else passes through. -/
def jsOrZero (x : Option Int) : Int :=
  match x with
  | none => 0
  | some v => if v = 0 then 0 else v

/-- JavaScript `s || fallback` on a string: the empty string is falsy. -/
def jsFallbackName (s fallback : String) : String :=
  if s = "" then fallback else s

/-- `DatabaseStorage.createProduct`: inserts the row spreading the payload
but overriding `stockAvailable` with `insertProduct.stockTotal || 0`;
absent `stockTotal`/`stockUsed` take the column default 0. -/
def createProduct (insertProduct : InsertProduct) : ProductRec :=
  { stockTotal := insertProduct.stockTotal.getD 0
    stockUsed := insertProduct.stockUsed.getD 0
    stockAvailable := jsOrZero insertProduct.stockTotal }

/-- Counter recomputation of the `POST /api/products/:id/stock` route:
`add` grows total and available, `use` grows used and shrinks available,
`adjust` sets the total and recomputes available; an unrecognized action
leaves all three counters unchanged (the route has no else-branch). -/
def newCounters (product : ProductRec) (action : String) (quantity : Int) : ProductRec :=
  let newStockTotal :=
    if action = "add" then product.stockTotal + quantity
    else if action = "adjust" then quantity
    else product.stockTotal
  let newStockUsed :=
    if action = "use" then product.stockUsed + quantity
    else product.stockUsed
  let newStockAvailable :=
    if action = "add" then product.stockAvailable + quantity
    else if action = "use" then product.stockAvailable - quantity
    else if action = "adjust" then newStockTotal - newStockUsed
    else product.stockAvailable
  { stockTotal := newStockTotal
    stockUsed := newStockUsed
    stockAvailable := newStockAvailable }

/-- The `POST /api/products/:id/stock` route: fetch the product (404 and no
write when absent), recompute the three counters together, persist them and
append one stock movement whose signed quantity is negative exactly for
`use`, with the before/after `stockAvailable` snapshot. -/
def postStock (db : DB) (pid : String) (action : String) (quantity : Int)
    (reason : String) : Except String Unit × DB :=
  match lookupA db.products pid with
  | none => (Except.error "Product not found", db)
  | some product =>
    let updated := newCounters product action quantity
    (Except.ok (),
      { db with
        products := updateA db.products pid updated
        stockMovements := db.stockMovements ++
          [{ productId := pid
             action := action
             quantity := if action = "use" then -quantity else quantity
             previousStock := product.stockAvailable
             newStock := updated.stockAvailable
             reason := reason
             orderId := none }] })

/-- Order number generation in `DatabaseStorage.createOrder`:
the template literal `ORD-${Date.now()}` (decimal milliseconds, nothing else). -/
def generateOrderNumber (nowMs : Nat) : String :=
  "ORD-" ++ toString nowMs

/-- The per-item ledger write of `createOrder` step 4: fetch the product,
set `stockUsed += quantity` and `stockAvailable = stockTotal - newStockUsed`
(a missing product is skipped entirely). -/
def useProductStep (ps : List (String × ProductRec)) (item : InsertOrderItem) :
    List (String × ProductRec) :=
  match lookupA ps item.productId with
  | none => ps
  | some product =>
    updateA ps item.productId
      { stockTotal := product.stockTotal
        stockUsed := product.stockUsed + item.quantity
        stockAvailable := product.stockTotal - (product.stockUsed + item.quantity) }

/-- The item loop of `createOrder`: for each item, fetch the product; when
present, flag oversell if the current `stockAvailable` is below the
requested quantity, write the decremented counters and append a movement
referencing the order; a missing product contributes nothing. -/
def orderItemLoop (oid orderNumber : String) :
    DB → Bool → List InsertOrderItem → DB × Bool
  | db, needsApproval, [] => (db, needsApproval)
  | db, needsApproval, item :: rest =>
    match lookupA db.products item.productId with
    | none => orderItemLoop oid orderNumber db needsApproval rest
    | some product =>
      orderItemLoop oid orderNumber
        { db with
          products := useProductStep db.products item
          stockMovements := db.stockMovements ++
            [{ productId := item.productId
               action := "use"
               quantity := -item.quantity
               previousStock := product.stockAvailable
               newStock := product.stockTotal - (product.stockUsed + item.quantity)
               reason := "Used for order " ++ orderNumber
               orderId := some oid }] }
        (needsApproval || decide (product.stockAvailable < item.quantity)) rest

/-- The store after one iteration of the item loop on a found product:
counters decremented via `useProductStep` and the order-linked movement
appended (an abbreviation of the loop body, for stating lemmas). -/
def loopStepDB (oid onum : String) (db : DB) (item : InsertOrderItem)
    (p : ProductRec) : DB :=
  { db with
    products := useProductStep db.products item
    stockMovements := db.stockMovements ++
      [{ productId := item.productId
         action := "use"
         quantity := -item.quantity
         previousStock := p.stockAvailable
         newStock := p.stockTotal - (p.stockUsed + item.quantity)
         reason := "Used for order " ++ onum
         orderId := some oid }] }

/-- Replay of the loop's oversell detection in isolation: true when some
item's quantity exceeds its product's `stockAvailable` at the moment that
item is decremented (earlier items of the same order already applied). -/
def someOversell : List (String × ProductRec) → List InsertOrderItem → Bool
  | _, [] => false
  | ps, item :: rest =>
    match lookupA ps item.productId with
    | none => someOversell ps rest
    | some product =>
      decide (product.stockAvailable < item.quantity) ||
        someOversell (useProductStep ps item) rest

/-- Replay of the loop's stock check in the positive direction: true when
every item (whose product exists) requests at most the `stockAvailable` it
sees at its own decrement step. -/
def allWithinStock : List (String × ProductRec) → List InsertOrderItem → Bool
  | _, [] => true
  | ps, item :: rest =>
    match lookupA ps item.productId with
    | none => allWithinStock ps rest
    | some product =>
      decide (item.quantity ≤ product.stockAvailable) &&
        allWithinStock (useProductStep ps item) rest

/-- `DatabaseStorage.createOrder`: generate the order number, insert the
order row; when items are present, insert the item rows, run the ledger
loop, and if any item oversold, flip the stored order to `needs_approval`
with requester metadata (`approvalRequestedBy` falling back from the
customer name to "system"). Returns the order row from the initial insert. -/
def createOrder (db : DB) (insertOrder : InsertOrder)
    (items : List InsertOrderItem) (nowMs : Nat) (oid : String) : DB × OrderRec :=
  let orderNumber := generateOrderNumber nowMs
  let order : OrderRec :=
    { orderNumber := orderNumber
      customerName := insertOrder.customerName
      status := insertOrder.status.getD "pending"
      approvalStatus := none
      approvalRequestedAt := none
      approvalRequestedBy := none
      approvalNotes := none }
  let db1 : DB := { db with orders := (oid, order) :: db.orders }
  match items with
  | [] => (db1, order)
  | _ :: _ =>
    let db2 : DB :=
      { db1 with
        orderItems := db1.orderItems ++ items.map (fun item =>
          { orderId := oid, productId := item.productId, quantity := item.quantity }) }
    let result := orderItemLoop oid orderNumber db2 false items
    if result.2 then
      ({ result.1 with
         orders := updateA result.1.orders oid
           { order with
             status := "needs_approval"
             approvalStatus := some "needs_approval"
             approvalRequestedAt := some nowMs
             approvalRequestedBy :=
               some (jsFallbackName insertOrder.customerName "system") } },
       order)
    else (result.1, order)

/-- `SELECT * FROM grns WHERE orderId = ...`. -/
def grnsForOrder (grns : List GrnRec) (orderId : String) : List GrnRec :=
  grns.filter (fun g => decide (g.orderId = orderId))

/-- `SELECT * FROM grnItems WHERE grnId = ...`. -/
def itemsOfGrn (grnItems : List GrnItemRec) (gid : String) : List GrnItemRec :=
  grnItems.filter (fun it => decide (it.grnId = gid))

/-- The header update `set({ ...header })` of the GRN upsert: overwrite the
header fields, preserving `id` and `orderId` (the header omits both). -/
def applyGrnHeader (g : GrnRec) (header : GrnHeader) : GrnRec :=
  { g with vendorName := header.vendorName, remarks := header.remarks }

/-- `UPDATE orders SET ... WHERE id = key` applying `f` to the stored row. -/
def modifyA {α : Type} : List (String × α) → String → (α → α) → List (String × α)
  | [], _, _ => []
  | (k, v) :: rest, key, f =>
    if k = key then (k, f v) :: rest else (k, v) :: modifyA rest key f

/-- `DatabaseStorage.upsertOrderApprovalWithGrn`: if a GRN row exists for
the order (`existing[0]`), update its header in place by id and delete all
its items; otherwise insert a fresh GRN row. Then insert the new item set
(when non-empty) under the GRN's id, and move the order to
`needs_approval` with requester metadata. Returns the GRN row. -/
def upsertOrderApprovalWithGrn (db : DB) (orderId : String) (header : GrnHeader)
    (items : List InsertGrnItem) (newGrnId : String)
    (requestedBy : Option String) (notes : Option String) (nowMs : Nat) :
    DB × GrnRec :=
  let step1 : DB × GrnRec :=
    match (grnsForOrder db.grns orderId).head? with
    | some g0 =>
      let grnRow := applyGrnHeader g0 header
      let dbU : DB :=
        { db with grns := db.grns.map (fun g =>
            if g.id = g0.id then applyGrnHeader g header else g) }
      ({ dbU with grnItems := dbU.grnItems.filter (fun it =>
          ! decide (it.grnId = grnRow.id)) },
       grnRow)
    | none =>
      let grnRow : GrnRec :=
        { id := newGrnId, orderId := orderId
          vendorName := header.vendorName, remarks := header.remarks }
      ({ db with grns := db.grns ++ [grnRow] }, grnRow)
  let dbA := step1.1
  let grnRow := step1.2
  let dbB : DB :=
    match items with
    | [] => dbA
    | _ :: _ =>
      { dbA with grnItems := dbA.grnItems ++ items.map (fun it =>
          { grnId := grnRow.id, partNo := it.partNo, quantity := it.quantity }) }
  let dbC : DB :=
    { dbB with orders := modifyA dbB.orders orderId (fun o =>
        { o with
          status := "needs_approval"
          approvalStatus := some "needs_approval"
          approvalRequestedAt := some nowMs
          approvalRequestedBy := requestedBy
          approvalNotes := notes }) }
  (dbC, grnRow)

/-- Character-list version of `String.startsWith`. -/
def charStartsWith : List Char → List Char → Bool
  | _, [] => true
  | [], _ :: _ => false
  | c :: cs, p :: ps => decide (c = p) && charStartsWith cs ps

/-- Substring containment on character lists. -/
def charHasSub : List Char → List Char → Bool
  | [], pat => pat.isEmpty
  | c :: cs, pat => charStartsWith (c :: cs) pat || charHasSub cs pat

/-- PostgreSQL `LIKE` applied to the pattern `'%' + pat + '%'` for a `pat`
containing no wildcard characters: case-SENSITIVE substring containment.
This is what drizzle's `like` helper in `getOrders` compiles to. -/
def sqlLikeContains (hay : String) (pat : String) : Bool :=
  charHasSub hay.data pat.data

/-- `DatabaseStorage.getOrders` restricted to its customer filter: when the
filter string is present and truthy (non-empty), keep the orders whose
`customerName` matches `LIKE '%' + filter + '%'`; result order (the sort
clause) is irrelevant to which rows are returned and is omitted. -/
def getOrdersByCustomer (rows : List OrderRec) (customer : Option String) :
    List OrderRec :=
  match customer with
  | none => rows
  | some c =>
    if c = "" then rows
    else rows.filter (fun o => sqlLikeContains o.customerName c)

/-- Modelled from the spec: a case-insensitive substring match of the
filter against the customer name (what the spec, and the code's own
comment, say the customer filter does). -/
def specCustomerMatch (name : String) (pat : String) : Bool :=
  charHasSub (name.data.map Char.toLower) (pat.data.map Char.toLower)

/-- The ledger invariant of the spec, over every product row of the store:
`stockAvailable = stockTotal - stockUsed`. -/
def productsInv (ps : List (String × ProductRec)) : Bool :=
  ps.all (fun kv => decide (kv.2.stockAvailable = kv.2.stockTotal - kv.2.stockUsed))

/-- A store holding exactly one freshly created product. -/
def freshProductDB (pid : String) (ip : InsertProduct) : DB :=
  { emptyDB with products := [(pid, createProduct ip)] }

/-- A sequence of `POST /api/products/:id/stock` calls against one product. -/
def runStockOps (pid : String) : DB → List (String × Int) → DB
  | db, [] => db
  | db, (action, quantity) :: rest =>
    runStockOps pid (postStock db pid action quantity ("")).2 rest

/-- A small concrete store used to instantiate the verified properties. -/
def sampleDB : DB :=
  { emptyDB with products :=
      [(("p1"), { stockTotal := 8, stockUsed := 0, stockAvailable := 8 }),
       (("p2"), { stockTotal := 5, stockUsed := 2, stockAvailable := 3 })] }

/-! ## Helper lemmas about the association-list store -/

theorem jsOrZero_eq_getD (x : Option Int) : jsOrZero x = x.getD 0 := by
  cases x with
  | none => rfl
  | some v =>
    by_cases h : v = 0
    · simp [jsOrZero, h]
    · simp [jsOrZero, h]

theorem lookupA_updateA_self {α : Type} (l : List (String × α)) (key : String)
    (v : α) (p : α) (h : lookupA l key = some p) :
    lookupA (updateA l key v) key = some v := by
  induction l with
  | nil => simp [lookupA] at h
  | cons kv rest ih =>
    obtain ⟨k, w⟩ := kv
    by_cases hk : k = key
    · simp [lookupA, updateA, hk]
    · simp [lookupA, updateA, hk] at h ⊢
      exact ih h

theorem lookupA_updateA_ne {α : Type} (l : List (String × α)) (key k : String)
    (v : α) (h : k ≠ key) :
    lookupA (updateA l key v) k = lookupA l k := by
  induction l with
  | nil => rfl
  | cons kv rest ih =>
    obtain ⟨k0, w⟩ := kv
    by_cases hk : k0 = key
    · subst hk
      have hne : ¬ k0 = k := fun hh => h hh.symm
      simp [updateA, lookupA, hne]
    · simp only [updateA, if_neg hk]
      by_cases hk2 : k0 = k
      · simp [lookupA, hk2]
      · simp [lookupA, hk2, ih]

theorem updateA_of_lookupA_none {α : Type} (l : List (String × α)) (key : String)
    (v : α) (h : lookupA l key = none) : updateA l key v = l := by
  induction l with
  | nil => rfl
  | cons kv rest ih =>
    obtain ⟨k, w⟩ := kv
    by_cases hk : k = key
    · simp [lookupA, hk] at h
    · simp [lookupA, hk] at h
      simp [updateA, hk, ih h]

theorem lookupA_updateA_isSome {α : Type} (l : List (String × α)) (key k : String)
    (v : α) :
    (lookupA (updateA l key v) k).isSome = (lookupA l k).isSome := by
  by_cases hk : k = key
  · subst hk
    cases h : lookupA l k with
    | none => rw [updateA_of_lookupA_none l k v h, h]
    | some p => rw [lookupA_updateA_self l k v p h]; rfl
  · rw [lookupA_updateA_ne l key k v hk]

/-! ## Behaviour of the stock endpoint on a found product -/

theorem postStock_found (db : DB) (pid action : String) (q : Int) (r : String)
    (p : ProductRec) (h : lookupA db.products pid = some p) :
    postStock db pid action q r =
      (Except.ok (),
        { db with
          products := updateA db.products pid (newCounters p action q)
          stockMovements := db.stockMovements ++
            [{ productId := pid
               action := action
               quantity := if action = "use" then -q else q
               previousStock := p.stockAvailable
               newStock := (newCounters p action q).stockAvailable
               reason := r
               orderId := none }] }) := by
  simp [postStock, h]

theorem newCounters_add (p : ProductRec) (q : Int) :
    newCounters p ("add") q =
      { stockTotal := p.stockTotal + q, stockUsed := p.stockUsed
        stockAvailable := p.stockAvailable + q } := by
  simp [newCounters]

theorem newCounters_use (p : ProductRec) (q : Int) :
    newCounters p ("use") q =
      { stockTotal := p.stockTotal, stockUsed := p.stockUsed + q
        stockAvailable := p.stockAvailable - q } := by
  simp [newCounters]

theorem newCounters_adjust (p : ProductRec) (q : Int) :
    newCounters p ("adjust") q =
      { stockTotal := q, stockUsed := p.stockUsed
        stockAvailable := q - p.stockUsed } := by
  simp [newCounters]

/-! ## Unfold lemmas for the createOrder item loop -/

theorem useProductStep_none (ps : List (String × ProductRec)) (item : InsertOrderItem)
    (h : lookupA ps item.productId = none) : useProductStep ps item = ps := by
  simp [useProductStep, h]

theorem useProductStep_some (ps : List (String × ProductRec)) (item : InsertOrderItem)
    (p : ProductRec) (h : lookupA ps item.productId = some p) :
    useProductStep ps item = updateA ps item.productId
      { stockTotal := p.stockTotal
        stockUsed := p.stockUsed + item.quantity
        stockAvailable := p.stockTotal - (p.stockUsed + item.quantity) } := by
  simp [useProductStep, h]

theorem orderItemLoop_cons_none (oid onum : String) (db : DB) (flag : Bool)
    (item : InsertOrderItem) (rest : List InsertOrderItem)
    (h : lookupA db.products item.productId = none) :
    orderItemLoop oid onum db flag (item :: rest) = orderItemLoop oid onum db flag rest := by
  simp [orderItemLoop, h]

theorem orderItemLoop_cons_some (oid onum : String) (db : DB) (flag : Bool)
    (item : InsertOrderItem) (rest : List InsertOrderItem) (p : ProductRec)
    (h : lookupA db.products item.productId = some p) :
    orderItemLoop oid onum db flag (item :: rest) =
      orderItemLoop oid onum (loopStepDB oid onum db item p)
        (flag || decide (p.stockAvailable < item.quantity)) rest := by
  simp [orderItemLoop, loopStepDB, h]

theorem someOversell_cons_none (ps : List (String × ProductRec)) (item : InsertOrderItem)
    (rest : List InsertOrderItem) (h : lookupA ps item.productId = none) :
    someOversell ps (item :: rest) = someOversell ps rest := by
  simp [someOversell, h]

theorem someOversell_cons_some (ps : List (String × ProductRec)) (item : InsertOrderItem)
    (rest : List InsertOrderItem) (p : ProductRec)
    (h : lookupA ps item.productId = some p) :
    someOversell ps (item :: rest) =
      (decide (p.stockAvailable < item.quantity) || someOversell (useProductStep ps item) rest) := by
  simp [someOversell, h]

theorem allWithinStock_cons_none (ps : List (String × ProductRec)) (item : InsertOrderItem)
    (rest : List InsertOrderItem) (h : lookupA ps item.productId = none) :
    allWithinStock ps (item :: rest) = allWithinStock ps rest := by
  simp [allWithinStock, h]

theorem allWithinStock_cons_some (ps : List (String × ProductRec)) (item : InsertOrderItem)
    (rest : List InsertOrderItem) (p : ProductRec)
    (h : lookupA ps item.productId = some p) :
    allWithinStock ps (item :: rest) =
      (decide (item.quantity ≤ p.stockAvailable) && allWithinStock (useProductStep ps item) rest) := by
  simp [allWithinStock, h]

theorem orderItemLoop_orders (oid onum : String) (items : List InsertOrderItem)
    (db : DB) (flag : Bool) :
    ((orderItemLoop oid onum db flag items).1).orders = db.orders := by
  induction items generalizing db flag with
  | nil => rfl
  | cons item rest ih =>
    cases h : lookupA db.products item.productId with
    | none =>
      rw [orderItemLoop_cons_none oid onum db flag item rest h]
      exact ih db flag
    | some p =>
      rw [orderItemLoop_cons_some oid onum db flag item rest p h]
      exact ih _ _

theorem orderItemLoop_flag (oid onum : String) (items : List InsertOrderItem)
    (db : DB) (flag : Bool) :
    (orderItemLoop oid onum db flag items).2 = (flag || someOversell db.products items) := by
  induction items generalizing db flag with
  | nil => simp [orderItemLoop, someOversell]
  | cons item rest ih =>
    cases h : lookupA db.products item.productId with
    | none =>
      rw [orderItemLoop_cons_none oid onum db flag item rest h,
        someOversell_cons_none db.products item rest h]
      exact ih db flag
    | some p =>
      rw [orderItemLoop_cons_some oid onum db flag item rest p h,
        someOversell_cons_some db.products item rest p h]
      rw [ih _ _]
      exact Bool.or_assoc flag _ _

theorem allWithinStock_no_oversell (items : List InsertOrderItem)
    (ps : List (String × ProductRec)) (h : allWithinStock ps items = true) :
    someOversell ps items = false := by
  induction items generalizing ps with
  | nil => rfl
  | cons item rest ih =>
    cases hl : lookupA ps item.productId with
    | none =>
      rw [allWithinStock_cons_none ps item rest hl] at h
      rw [someOversell_cons_none ps item rest hl]
      exact ih ps h
    | some p =>
      rw [allWithinStock_cons_some ps item rest p hl] at h
      rw [someOversell_cons_some ps item rest p hl]
      rw [Bool.and_eq_true] at h
      obtain ⟨h1, h2⟩ := h
      have hlt : decide (p.stockAvailable < item.quantity) = false := by
        simp only [decide_eq_true_eq] at h1
        simp only [decide_eq_false_iff_not]
        omega
      rw [hlt, ih _ h2]
      rfl

/-! ## Preservation of the ledger invariant -/

theorem productsInv_cons (kv : String × ProductRec) (rest : List (String × ProductRec)) :
    productsInv (kv :: rest) =
      (decide (kv.2.stockAvailable = kv.2.stockTotal - kv.2.stockUsed) && productsInv rest) := by
  simp [productsInv]

theorem productsInv_lookupA (ps : List (String × ProductRec)) (k : String)
    (p : ProductRec) (hinv : productsInv ps = true) (h : lookupA ps k = some p) :
    p.stockAvailable = p.stockTotal - p.stockUsed := by
  induction ps with
  | nil => simp [lookupA] at h
  | cons kv rest ih =>
    obtain ⟨k0, w⟩ := kv
    rw [productsInv_cons] at hinv
    rw [Bool.and_eq_true] at hinv
    obtain ⟨h1, h2⟩ := hinv
    by_cases hk : k0 = k
    · simp only [lookupA, if_pos hk] at h
      cases h
      simpa using h1
    · simp only [lookupA, if_neg hk] at h
      exact ih h2 h

theorem productsInv_updateA (ps : List (String × ProductRec)) (k : String)
    (v : ProductRec) (hinv : productsInv ps = true)
    (hv : v.stockAvailable = v.stockTotal - v.stockUsed) :
    productsInv (updateA ps k v) = true := by
  induction ps with
  | nil => rfl
  | cons kv rest ih =>
    obtain ⟨k0, w⟩ := kv
    rw [productsInv_cons] at hinv
    rw [Bool.and_eq_true] at hinv
    obtain ⟨h1, h2⟩ := hinv
    by_cases hk : k0 = k
    · simp only [updateA, if_pos hk, productsInv_cons]
      rw [Bool.and_eq_true]
      exact ⟨by simpa using hv, h2⟩
    · simp only [updateA, if_neg hk, productsInv_cons]
      rw [Bool.and_eq_true]
      exact ⟨h1, ih h2⟩

theorem newCounters_inv (p : ProductRec) (a : String) (q : Int)
    (hp : p.stockAvailable = p.stockTotal - p.stockUsed) :
    (newCounters p a q).stockAvailable =
      (newCounters p a q).stockTotal - (newCounters p a q).stockUsed := by
  by_cases h1 : a = "add"
  · simp [newCounters, h1]
    omega
  · by_cases h2 : a = "use"
    · simp [newCounters, h1, h2]
      omega
    · by_cases h3 : a = "adjust"
      · simp [newCounters, h1, h2, h3]
      · simp [newCounters, h1, h2, h3]
        omega

theorem postStock_preserves_inv (db : DB) (pid a : String) (q : Int) (r : String)
    (hinv : productsInv db.products = true) :
    productsInv ((postStock db pid a q r).2).products = true := by
  cases h : lookupA db.products pid with
  | none =>
    simp only [postStock, h]
    exact hinv
  | some p =>
    rw [postStock_found db pid a q r p h]
    exact productsInv_updateA db.products pid _ hinv
      (newCounters_inv p a q (productsInv_lookupA db.products pid p hinv h))

theorem runStockOps_preserves_inv (pid : String) (ops : List (String × Int))
    (db : DB) (hinv : productsInv db.products = true) :
    productsInv (runStockOps pid db ops).products = true := by
  induction ops generalizing db with
  | nil => exact hinv
  | cons op rest ih =>
    obtain ⟨a, q⟩ := op
    exact ih _ (postStock_preserves_inv db pid a q ("") hinv)

/-! ## Claim theorems -/

/-- C2 (amended): provided the product-creation input leaves `stockUsed`
absent or zero (so the freshly created product satisfies the ledger
invariant), every sequence of add/use/adjust stock operations maintains
`stockAvailable = stockTotal - stockUsed` on every product of the store. -/
theorem stock_ops_preserve_ledger_invariant (ip : InsertProduct) (pid : String)
    (ops : List (String × Int)) (h : ip.stockUsed.getD 0 = 0) :
    productsInv (runStockOps pid (freshProductDB pid ip) ops).products = true := by
  apply runStockOps_preserves_inv
  simp [freshProductDB, emptyDB, productsInv, createProduct, jsOrZero_eq_getD, h]

/-- C2 counterexample: a freshly created product whose creation payload
carried `stockUsed = 5` (accepted by the insert schema) violates the
invariant already, and an `add` operation keeps it violated: the claim as
stated fails on this input. -/
theorem stock_invariant_fresh_product_counterexample :
    productsInv (runStockOps ("p1") (freshProductDB ("p1")
        { stockTotal := some 100, stockUsed := some 5, stockAvailable := none })
      [(("add"), 1)]).products = false := by
  decide

theorem stock_ops_invariant_witness :
    (({ stockTotal := some 10, stockUsed := none, stockAvailable := some 99 } :
        InsertProduct).stockUsed.getD 0 = 0) ∧
    productsInv (runStockOps ("p1") (freshProductDB ("p1")
        { stockTotal := some 10, stockUsed := none, stockAvailable := some 99 })
      [(("add"), 2), (("use"), 7), (("adjust"), 4)]).products = true :=
  ⟨by decide, stock_ops_preserve_ledger_invariant
    { stockTotal := some 10, stockUsed := none, stockAvailable := some 99 } ("p1")
    [(("add"), 2), (("use"), 7), (("adjust"), 4)] (by decide)⟩

/-- C4: when every item of the order requests at most the `stockAvailable`
its product shows at that item's decrement step, the stored order keeps
the caller-defaulted status ("pending" when unspecified) and its
`approvalStatus` is never set to needs_approval. -/
theorem createOrder_within_stock_no_approval (db : DB) (io : InsertOrder)
    (items : List InsertOrderItem) (nowMs : Nat) (oid : String)
    (h : allWithinStock db.products items = true) :
    ∃ o, lookupA ((createOrder db io items nowMs oid).1).orders oid = some o ∧
      o.status = io.status.getD "pending" ∧ o.approvalStatus = none := by
  cases items with
  | nil =>
    refine ⟨{ orderNumber := generateOrderNumber nowMs,
              customerName := io.customerName,
              status := io.status.getD "pending",
              approvalStatus := none,
              approvalRequestedAt := none,
              approvalRequestedBy := none,
              approvalNotes := none }, ?_, rfl, rfl⟩
    simp [createOrder, lookupA]
  | cons item rest =>
    have hso : someOversell db.products (item :: rest) = false :=
      allWithinStock_no_oversell _ _ h
    refine ⟨{ orderNumber := generateOrderNumber nowMs,
              customerName := io.customerName,
              status := io.status.getD "pending",
              approvalStatus := none,
              approvalRequestedAt := none,
              approvalRequestedBy := none,
              approvalNotes := none }, ?_, rfl, rfl⟩
    simp only [createOrder, orderItemLoop_flag, Bool.false_or, hso, if_neg,
      Bool.false_eq_true, not_false_eq_true, orderItemLoop_orders]
    simp [lookupA]

/-- C9: for every createProduct input, the stored `stockAvailable` equals
the input's `stockTotal` (0 when absent or zero), and any caller-supplied
`stockAvailable` is ignored entirely. -/
theorem createProduct_stockAvailable_from_stockTotal (ip : InsertProduct) :
    (createProduct ip).stockAvailable = ip.stockTotal.getD 0 ∧
    ∀ v : Option Int, createProduct { ip with stockAvailable := v } = createProduct ip := by
  refine ⟨jsOrZero_eq_getD ip.stockTotal, ?_⟩
  intro v
  rfl

/-- C10: createOrder with an empty items list still inserts and returns the
order row but touches no product counters, no order-item rows and no stock
movements, and leaves the order out of needs_approval (status is the
caller's default, approvalStatus stays unset). -/
theorem createOrder_empty_items_frame (db : DB) (io : InsertOrder) (nowMs : Nat)
    (oid : String) :
    (createOrder db io [] nowMs oid).1.products = db.products ∧
    (createOrder db io [] nowMs oid).1.orderItems = db.orderItems ∧
    (createOrder db io [] nowMs oid).1.stockMovements = db.stockMovements ∧
    (createOrder db io [] nowMs oid).1.orders
      = (oid, (createOrder db io [] nowMs oid).2) :: db.orders ∧
    (createOrder db io [] nowMs oid).2.status = io.status.getD "pending" ∧
    (createOrder db io [] nowMs oid).2.approvalStatus = none :=
  ⟨rfl, rfl, rfl, rfl, rfl, rfl⟩

/-- C8: a stock update against a missing product id fails with the
not-found error and is a no-op: the store is returned unchanged, so no
counters move and no stock movement is recorded. -/
theorem stock_update_missing_product_noop (db : DB) (pid action : String)
    (quantity : Int) (reason : String) (h : lookupA db.products pid = none) :
    postStock db pid action quantity reason = (Except.error "Product not found", db) := by
  simp [postStock, h]

theorem stock_update_missing_product_noop_witness :
    lookupA emptyDB.products ("p1") = none ∧
    postStock emptyDB ("p1") ("add") 5 ("restock") =
      (Except.error "Product not found", emptyDB) :=
  ⟨by decide, stock_update_missing_product_noop emptyDB ("p1") ("add") 5 ("restock") (by decide)⟩

theorem createOrder_orderNumber (db : DB) (io : InsertOrder)
    (items : List InsertOrderItem) (nowMs : Nat) (oid : String) :
    (createOrder db io items nowMs oid).2.orderNumber = generateOrderNumber nowMs := by
  cases items with
  | nil => rfl
  | cons a l =>
    simp only [createOrder]
    split
    · rfl
    · rfl

/-- C5 (amended): the generated order number is derived from the timestamp
alone, with no random component: any two createOrder invocations at the
same millisecond tick produce the SAME order number, namely "ORD-"
followed by the decimal milliseconds; numbers can differ only across
distinct ticks. -/
theorem order_number_time_derived (db1 db2 : DB) (io1 io2 : InsertOrder)
    (items1 items2 : List InsertOrderItem) (oid1 oid2 : String) (nowMs : Nat) :
    (createOrder db1 io1 items1 nowMs oid1).2.orderNumber
      = (createOrder db2 io2 items2 nowMs oid2).2.orderNumber ∧
    (createOrder db1 io1 items1 nowMs oid1).2.orderNumber
      = "ORD-" ++ Nat.repr nowMs := by
  rw [createOrder_orderNumber, createOrder_orderNumber]
  exact ⟨rfl, rfl⟩

/-- C5 counterexample: two createOrder invocations within the same
millisecond tick, with different payloads and row ids, generate identical
order numbers, refuting the claimed same-tick uniqueness via randomness
(the source builds the number as the bare template literal
`ORD-Date.now()`). -/
theorem order_number_same_tick_collision :
    (createOrder emptyDB { customerName := "Ada", status := none }
        [] 1700000000000 ("o1")).2.orderNumber
      = (createOrder emptyDB { customerName := "Bob", status := none }
        [] 1700000000000 ("o2")).2.orderNumber :=
  rfl

/-- C6 (code bug): the customer filter of getOrders compiles to PostgreSQL
`LIKE`, which is case-sensitive, although the spec and the code's own
comment ("case-insensitive partial match on customer name") require a
case-insensitive match: filtering the store containing the order of
customer "Alice" by the string "alice" returns no rows, while the
specified matcher accepts that very pair. -/
theorem customer_filter_case_sensitive_bug :
    getOrdersByCustomer
      [{ orderNumber := "ORD-1", customerName := "Alice", status := "pending"
         approvalStatus := none, approvalRequestedAt := none
         approvalRequestedBy := none, approvalNotes := none }] (some ("alice")) = [] ∧
    specCustomerMatch ("Alice") ("alice") = true := by
  exact ⟨by decide, by decide⟩

/-- C7: on an existing product, add(n) immediately followed by use(n)
restores `stockAvailable` to its pre-add value and appends exactly two
stock movements whose signed quantities are +n and -n, summing to zero. -/
theorem stock_add_then_use_roundtrip (db : DB) (pid : String) (n : Int)
    (r1 r2 : String) (p : ProductRec) (h : lookupA db.products pid = some p) :
    ∃ p2, lookupA ((postStock (postStock db pid ("add") n r1).2 pid ("use") n r2).2).products pid
        = some p2 ∧
      p2.stockAvailable = p.stockAvailable ∧
      ∃ ms, ((postStock (postStock db pid ("add") n r1).2 pid ("use") n r2).2).stockMovements
          = db.stockMovements ++ ms ∧
        ms.length = 2 ∧
        ms.map (fun m => m.quantity) = [n, -n] ∧
        (ms.map (fun m => m.quantity)).sum = 0 := by
  rw [postStock_found db pid ("add") n r1 p h]
  have h2 : lookupA (updateA db.products pid (newCounters p ("add") n)) pid
      = some (newCounters p ("add") n) := lookupA_updateA_self _ _ _ _ h
  rw [postStock_found _ pid ("use") n _ _ h2]
  refine ⟨newCounters (newCounters p ("add") n) ("use") n,
    lookupA_updateA_self _ _ _ _ h2, ?_, ?_⟩
  · simp [newCounters_use, newCounters_add]
  · refine ⟨[{ productId := pid, action := "add",
               quantity := if ("add" : String) = "use" then -n else n,
               previousStock := p.stockAvailable,
               newStock := (newCounters p ("add") n).stockAvailable,
               reason := r1, orderId := none },
             { productId := pid, action := "use",
               quantity := if ("use" : String) = "use" then -n else n,
               previousStock := (newCounters p ("add") n).stockAvailable,
               newStock := (newCounters (newCounters p ("add") n) ("use") n).stockAvailable,
               reason := r2, orderId := none }], ?_, ?_, ?_, ?_⟩
    · rw [List.append_assoc]
      rfl
    · rfl
    · simp
    · simp

theorem stock_add_then_use_roundtrip_witness :
    lookupA sampleDB.products ("p1")
      = some { stockTotal := 8, stockUsed := 0, stockAvailable := 8 } ∧
    (∃ p2, lookupA ((postStock (postStock sampleDB ("p1") ("add") 3 ("a")).2
          ("p1") ("use") 3 ("b")).2).products ("p1") = some p2 ∧
      p2.stockAvailable = (8 : Int) ∧
      ∃ ms, ((postStock (postStock sampleDB ("p1") ("add") 3 ("a")).2
            ("p1") ("use") 3 ("b")).2).stockMovements
          = sampleDB.stockMovements ++ ms ∧
        ms.length = 2 ∧
        ms.map (fun m => m.quantity) = [3, -3] ∧
        (ms.map (fun m => m.quantity)).sum = 0) :=
  ⟨by decide, stock_add_then_use_roundtrip sampleDB ("p1") 3 ("a") ("b")
    { stockTotal := 8, stockUsed := 0, stockAvailable := 8 } (by decide)⟩

theorem createOrder_within_stock_no_approval_witness :
    allWithinStock sampleDB.products [{ productId := "p1", quantity := 5 }] = true ∧
    (∃ o, lookupA ((createOrder sampleDB { customerName := "Ada", status := none }
        [{ productId := "p1", quantity := 5 }] 7 ("o1")).1).orders ("o1") = some o ∧
      o.status = "pending" ∧ o.approvalStatus = none) :=
  ⟨by decide, createOrder_within_stock_no_approval sampleDB
    { customerName := "Ada", status := none }
    [{ productId := "p1", quantity := 5 }] 7 ("o1") (by decide)⟩

/-! ## Oversell analysis for createOrder -/

theorem useProductStep_isSome (ps : List (String × ProductRec))
    (item : InsertOrderItem) (k : String) :
    (lookupA (useProductStep ps item) k).isSome = (lookupA ps k).isSome := by
  cases h : lookupA ps item.productId with
  | none => rw [useProductStep_none ps item h]
  | some p =>
    rw [useProductStep_some ps item p h]
    exact lookupA_updateA_isSome ps item.productId k _

theorem useProductStep_inv (ps : List (String × ProductRec)) (item : InsertOrderItem)
    (hinv : productsInv ps = true) : productsInv (useProductStep ps item) = true := by
  cases h : lookupA ps item.productId with
  | none =>
    rw [useProductStep_none ps item h]
    exact hinv
  | some p =>
    rw [useProductStep_some ps item p h]
    exact productsInv_updateA ps item.productId _ hinv rfl

theorem orderItemLoop_movements (oid onum : String) (items : List InsertOrderItem) :
    ∀ (db : DB) (flag : Bool),
      items.all (fun it => (lookupA db.products it.productId).isSome) = true →
      ∃ ms, ((orderItemLoop oid onum db flag items).1).stockMovements
          = db.stockMovements ++ ms ∧
        ms.map (fun m => (m.productId, m.action, m.quantity))
          = items.map (fun it => (it.productId, "use", -it.quantity)) := by
  induction items with
  | nil =>
    intro db flag _
    exact ⟨[], by simp [orderItemLoop], rfl⟩
  | cons item rest ih =>
    intro db flag hex
    rw [List.all_cons, Bool.and_eq_true] at hex
    obtain ⟨h1, h2⟩ := hex
    cases h : lookupA db.products item.productId with
    | none =>
      rw [h] at h1
      simp at h1
    | some p =>
      rw [orderItemLoop_cons_some oid onum db flag item rest p h]
      have hex' : rest.all (fun it =>
          (lookupA (useProductStep db.products item) it.productId).isSome) = true := by
        rw [List.all_eq_true] at h2 ⊢
        intro it hit
        rw [useProductStep_isSome db.products item it.productId]
        exact h2 it hit
      obtain ⟨ms', hms1, hms2⟩ := ih (loopStepDB oid onum db item p)
        (flag || decide (p.stockAvailable < item.quantity)) hex'
      refine ⟨{ productId := item.productId, action := "use",
                quantity := -item.quantity,
                previousStock := p.stockAvailable,
                newStock := p.stockTotal - (p.stockUsed + item.quantity),
                reason := "Used for order " ++ onum,
                orderId := some oid } :: ms', ?_, ?_⟩
      · rw [hms1]
        simp [loopStepDB]
      · simp only [List.map_cons, hms2]

theorem orderItemLoop_neg_persist (oid onum : String) (items : List InsertOrderItem) :
    ∀ (db : DB) (flag : Bool) (pid : String) (p : ProductRec),
      productsInv db.products = true →
      items.all (fun it => decide (0 ≤ it.quantity)) = true →
      lookupA db.products pid = some p →
      p.stockAvailable < 0 →
      ∃ q, lookupA ((orderItemLoop oid onum db flag items).1).products pid = some q ∧
        q.stockAvailable < 0 := by
  induction items with
  | nil =>
    intro db flag pid p _ _ hp hneg
    exact ⟨p, hp, hneg⟩
  | cons item rest ih =>
    intro db flag pid p hinv hq hp hneg
    rw [List.all_cons, Bool.and_eq_true] at hq
    obtain ⟨hq1, hq2⟩ := hq
    cases h : lookupA db.products item.productId with
    | none =>
      rw [orderItemLoop_cons_none oid onum db flag item rest h]
      exact ih db flag pid p hinv hq2 hp hneg
    | some pr =>
      rw [orderItemLoop_cons_some oid onum db flag item rest pr h]
      have hinv' : productsInv (loopStepDB oid onum db item pr).products = true :=
        useProductStep_inv db.products item hinv
      by_cases hpid : item.productId = pid
      · have hpr : pr = p := by
          rw [hpid] at h
          exact Option.some.inj (h.symm.trans hp)
        have hpinv := productsInv_lookupA db.products pid p hinv hp
        have hq1' : 0 ≤ item.quantity := by simpa using hq1
        have hlk : lookupA (loopStepDB oid onum db item pr).products pid
            = some { stockTotal := pr.stockTotal
                     stockUsed := pr.stockUsed + item.quantity
                     stockAvailable := pr.stockTotal - (pr.stockUsed + item.quantity) } := by
          show lookupA (useProductStep db.products item) pid = _
          rw [useProductStep_some db.products item pr h, hpid]
          exact lookupA_updateA_self db.products pid _ p hp
        have hneg' : pr.stockTotal - (pr.stockUsed + item.quantity) < 0 := by
          rw [hpr]
          omega
        exact ih (loopStepDB oid onum db item pr) _ pid _ hinv' hq2 hlk hneg'
      · have hlk : lookupA (loopStepDB oid onum db item pr).products pid = some p := by
          show lookupA (useProductStep db.products item) pid = _
          rw [useProductStep_some db.products item pr h]
          rw [lookupA_updateA_ne db.products item.productId pid _
            (fun hh => hpid hh.symm)]
          exact hp
        exact ih (loopStepDB oid onum db item pr) _ pid p hinv' hq2 hlk hneg

theorem orderItemLoop_oversell_negative (oid onum : String)
    (items : List InsertOrderItem) :
    ∀ (db : DB) (flag : Bool),
      productsInv db.products = true →
      items.all (fun it => decide (0 ≤ it.quantity)) = true →
      someOversell db.products items = true →
      ∃ pid q, lookupA ((orderItemLoop oid onum db flag items).1).products pid = some q ∧
        q.stockAvailable < 0 := by
  induction items with
  | nil =>
    intro db flag _ _ hso
    exact absurd hso (by simp [someOversell])
  | cons item rest ih =>
    intro db flag hinv hq hso
    rw [List.all_cons, Bool.and_eq_true] at hq
    obtain ⟨hq1, hq2⟩ := hq
    cases h : lookupA db.products item.productId with
    | none =>
      rw [someOversell_cons_none db.products item rest h] at hso
      rw [orderItemLoop_cons_none oid onum db flag item rest h]
      exact ih db flag hinv hq2 hso
    | some p =>
      rw [someOversell_cons_some db.products item rest p h] at hso
      rw [orderItemLoop_cons_some oid onum db flag item rest p h]
      have hinv' : productsInv (loopStepDB oid onum db item p).products = true :=
        useProductStep_inv db.products item hinv
      rw [Bool.or_eq_true] at hso
      rcases hso with hso1 | hso2
      · have hlt : p.stockAvailable < item.quantity := by simpa using hso1
        have hpinv := productsInv_lookupA db.products item.productId p hinv h
        have hq1' : 0 ≤ item.quantity := by simpa using hq1
        have hlk : lookupA (loopStepDB oid onum db item p).products item.productId
            = some { stockTotal := p.stockTotal
                     stockUsed := p.stockUsed + item.quantity
                     stockAvailable := p.stockTotal - (p.stockUsed + item.quantity) } := by
          show lookupA (useProductStep db.products item) item.productId = _
          rw [useProductStep_some db.products item p h]
          exact lookupA_updateA_self db.products item.productId _ p h
        have hneg : p.stockTotal - (p.stockUsed + item.quantity) < 0 := by omega
        obtain ⟨q, hq', hqneg⟩ := orderItemLoop_neg_persist oid onum rest
          (loopStepDB oid onum db item p) _ item.productId _ hinv' hq2 hlk hneg
        exact ⟨item.productId, q, hq', hqneg⟩
      · exact ih (loopStepDB oid onum db item p) _ hinv' hq2 hso2

/-- C1 (amended): when some item of the order oversells at its decrement
step, and additionally (i) every item references an existing product, (ii)
all item quantities are nonnegative, and (iii) every product satisfies the
ledger invariant `stockAvailable = stockTotal - stockUsed` beforehand,
createOrder (a) leaves some product's stockAvailable negative, (b) records
one "use" stock movement with the negated quantity for every item, and (c)
stores the order with status and approvalStatus needs_approval,
approvalRequestedAt stamped, and approvalRequestedBy the customer name
(falling back to "system" when the name is empty). -/
theorem createOrder_oversell_flags_and_decrements (db : DB) (io : InsertOrder)
    (items : List InsertOrderItem) (nowMs : Nat) (oid : String)
    (hover : someOversell db.products items = true)
    (hex : items.all (fun it => (lookupA db.products it.productId).isSome) = true)
    (hinv : productsInv db.products = true)
    (hq : items.all (fun it => decide (0 ≤ it.quantity)) = true) :
    (∃ pid q, lookupA ((createOrder db io items nowMs oid).1).products pid = some q ∧
      q.stockAvailable < 0) ∧
    (∃ ms, ((createOrder db io items nowMs oid).1).stockMovements
        = db.stockMovements ++ ms ∧
      ms.map (fun m => (m.productId, m.action, m.quantity))
        = items.map (fun it => (it.productId, "use", -it.quantity))) ∧
    (∃ o, lookupA ((createOrder db io items nowMs oid).1).orders oid = some o ∧
      o.status = "needs_approval" ∧ o.approvalStatus = some "needs_approval" ∧
      o.approvalRequestedAt = some nowMs ∧
      o.approvalRequestedBy = some (jsFallbackName io.customerName "system")) := by
  cases items with
  | nil => simp [someOversell] at hover
  | cons item rest =>
    simp only [createOrder, orderItemLoop_flag, Bool.false_or]
    rw [hover]
    simp only [if_pos]
    refine ⟨?_, ?_, ?_⟩
    · exact orderItemLoop_oversell_negative oid (generateOrderNumber nowMs)
        (item :: rest) _ false hinv hq hover
    · exact orderItemLoop_movements oid (generateOrderNumber nowMs)
        (item :: rest) _ false hex
    · rw [orderItemLoop_orders]
      refine ⟨{ orderNumber := generateOrderNumber nowMs,
                customerName := io.customerName,
                status := "needs_approval",
                approvalStatus := some "needs_approval",
                approvalRequestedAt := some nowMs,
                approvalRequestedBy := some (jsFallbackName io.customerName "system"),
                approvalNotes := none }, ?_, rfl, rfl, rfl, rfl⟩
      simp [updateA, lookupA]

/-- C1 counterexample: in a reachable store where the ledger invariant is
broken (product p1 created with stockTotal 100 and then partially updated
to stockAvailable 5 while stockUsed stayed 0, as PUT /api/products/:id
permits), an order of quantity 10 oversells at decrement time (5 < 10),
yet the decremented stockAvailable is 100 - (0 + 10) = 90: the product
does not go negative, so conclusion (a) of the claim fails as stated. -/
theorem createOrder_oversell_nonnegative_counterexample :
    someOversell [(("p1"), { stockTotal := 100, stockUsed := 0, stockAvailable := 5 })]
      [{ productId := "p1", quantity := 10 }] = true ∧
    lookupA ((createOrder
        { emptyDB with products :=
            [(("p1"), { stockTotal := 100, stockUsed := 0, stockAvailable := 5 })] }
        { customerName := "Ada", status := none }
        [{ productId := "p1", quantity := 10 }] 1 ("o1")).1).products ("p1")
      = some { stockTotal := 100, stockUsed := 10, stockAvailable := 90 } ∧
    ¬ (90 : Int) < 0 :=
  ⟨by decide, by decide, by decide⟩

theorem createOrder_oversell_witness :
    someOversell sampleDB.products [{ productId := "p1", quantity := 15 }] = true ∧
    ([{ productId := "p1", quantity := 15 }] : List InsertOrderItem).all
      (fun it => (lookupA sampleDB.products it.productId).isSome) = true ∧
    productsInv sampleDB.products = true ∧
    ([{ productId := "p1", quantity := 15 }] : List InsertOrderItem).all
      (fun it => decide (0 ≤ it.quantity)) = true ∧
    ((∃ pid q, lookupA ((createOrder sampleDB { customerName := "Ada", status := none }
          [{ productId := "p1", quantity := 15 }] 9 ("o1")).1).products pid = some q ∧
        q.stockAvailable < 0) ∧
      (∃ ms, ((createOrder sampleDB { customerName := "Ada", status := none }
            [{ productId := "p1", quantity := 15 }] 9 ("o1")).1).stockMovements
          = sampleDB.stockMovements ++ ms ∧
        ms.map (fun m => (m.productId, m.action, m.quantity))
          = ([{ productId := "p1", quantity := 15 }] : List InsertOrderItem).map
              (fun it => (it.productId, "use", -it.quantity))) ∧
      (∃ o, lookupA ((createOrder sampleDB { customerName := "Ada", status := none }
            [{ productId := "p1", quantity := 15 }] 9 ("o1")).1).orders ("o1") = some o ∧
        o.status = "needs_approval" ∧ o.approvalStatus = some "needs_approval" ∧
        o.approvalRequestedAt = some 9 ∧
        o.approvalRequestedBy = some (jsFallbackName ("Ada") ("system")))) :=
  ⟨by decide, by decide, by decide, by decide,
    createOrder_oversell_flags_and_decrements sampleDB
      { customerName := "Ada", status := none }
      [{ productId := "p1", quantity := 15 }] 9 ("o1")
      (by decide) (by decide) (by decide) (by decide)⟩

/-! ## GRN upsert analysis -/

theorem filter_map_of_pred_comm {α : Type} (l : List α) (f : α → α) (p : α → Bool)
    (h : ∀ a, p (f a) = p a) : (l.map f).filter p = (l.filter p).map f := by
  induction l with
  | nil => rfl
  | cons a t ih =>
    cases hp : p a with
    | false => simp [List.filter_cons, h a, hp, ih]
    | true => simp [List.filter_cons, h a, hp, ih]

theorem filter_not_filter_nil {α : Type} (l : List α) (p : α → Bool) :
    (l.filter (fun a => ! p a)).filter p = [] := by
  induction l with
  | nil => rfl
  | cons a t ih =>
    cases hp : p a with
    | false => simp [List.filter_cons, hp, ih]
    | true => simp [List.filter_cons, hp, ih]

theorem filter_map_all_true {α β : Type} (l : List α) (f : α → β) (p : β → Bool)
    (h : ∀ a, p (f a) = true) : (l.map f).filter p = l.map f := by
  induction l with
  | nil => rfl
  | cons a t ih => simp [List.filter_cons, h a, ih]

theorem grnsForOrder_append (l1 l2 : List GrnRec) (orderId : String) :
    grnsForOrder (l1 ++ l2) orderId = grnsForOrder l1 orderId ++ grnsForOrder l2 orderId := by
  simp [grnsForOrder, List.filter_append]

theorem applyGrnHeader_id (g : GrnRec) (header : GrnHeader) :
    (applyGrnHeader g header).id = g.id := rfl

theorem applyGrnHeader_orderId (g : GrnRec) (header : GrnHeader) :
    (applyGrnHeader g header).orderId = g.orderId := rfl

theorem grnsForOrder_map_update (grns : List GrnRec) (orderId : String)
    (g0 : GrnRec) (header : GrnHeader) :
    grnsForOrder (grns.map (fun g => if g.id = g0.id then applyGrnHeader g header else g)) orderId
      = (grnsForOrder grns orderId).map
          (fun g => if g.id = g0.id then applyGrnHeader g header else g) := by
  unfold grnsForOrder
  apply filter_map_of_pred_comm
  intro g
  by_cases hid : g.id = g0.id
  · simp [hid, applyGrnHeader]
  · simp [hid]

theorem upsert_insert_branch (db : DB) (orderId : String) (header : GrnHeader)
    (items : List InsertGrnItem) (newGrnId : String) (rb nt : Option String) (t : Nat)
    (h : grnsForOrder db.grns orderId = []) :
    (upsertOrderApprovalWithGrn db orderId header items newGrnId rb nt t).2
      = { id := newGrnId, orderId := orderId
          vendorName := header.vendorName, remarks := header.remarks } ∧
    grnsForOrder ((upsertOrderApprovalWithGrn db orderId header items newGrnId
        rb nt t).1).grns orderId
      = [{ id := newGrnId, orderId := orderId
           vendorName := header.vendorName, remarks := header.remarks }] := by
  constructor
  · simp [upsertOrderApprovalWithGrn, h]
  · cases items with
    | nil =>
      simp only [upsertOrderApprovalWithGrn, h, List.head?_nil]
      rw [grnsForOrder_append, h]
      simp [grnsForOrder]
    | cons a l =>
      simp only [upsertOrderApprovalWithGrn, h, List.head?_nil]
      rw [grnsForOrder_append, h]
      simp [grnsForOrder]

theorem upsert_update_branch (db : DB) (orderId : String) (header : GrnHeader)
    (items : List InsertGrnItem) (newGrnId : String) (rb nt : Option String) (t : Nat)
    (g0 : GrnRec) (h : grnsForOrder db.grns orderId = [g0]) :
    (upsertOrderApprovalWithGrn db orderId header items newGrnId rb nt t).2
      = applyGrnHeader g0 header ∧
    grnsForOrder ((upsertOrderApprovalWithGrn db orderId header items newGrnId
        rb nt t).1).grns orderId = [applyGrnHeader g0 header] ∧
    itemsOfGrn ((upsertOrderApprovalWithGrn db orderId header items newGrnId
        rb nt t).1).grnItems g0.id
      = items.map (fun it =>
          { grnId := g0.id, partNo := it.partNo, quantity := it.quantity }) := by
  refine ⟨?_, ?_, ?_⟩
  · simp [upsertOrderApprovalWithGrn, h]
  · cases items with
    | nil =>
      simp only [upsertOrderApprovalWithGrn, h, List.head?_cons]
      rw [grnsForOrder_map_update, h]
      simp
    | cons a l =>
      simp only [upsertOrderApprovalWithGrn, h, List.head?_cons]
      rw [grnsForOrder_map_update, h]
      simp
  · cases items with
    | nil =>
      simp only [upsertOrderApprovalWithGrn, h, List.head?_cons, List.map_nil]
      exact filter_not_filter_nil db.grnItems
        (fun it => decide (it.grnId = g0.id))
    | cons a l =>
      simp only [upsertOrderApprovalWithGrn, h, List.head?_cons]
      unfold itemsOfGrn
      rw [List.filter_append]
      simp only [applyGrnHeader_id]
      rw [filter_not_filter_nil db.grnItems (fun it => decide (it.grnId = g0.id))]
      rw [filter_map_all_true _ _ _ (fun it => by simp [applyGrnHeader])]
      simp

/-- C3: submitting approval with a GRN twice for the same order (first N
items, then M items), starting from a store holding at most one GRN for
that order, leaves exactly one GRN row for the order — the same row as
after the first submission, its header updated in place — and exactly M
GrnItem rows belonging to it (the item set is wholesale-replaced, not
merged). -/
theorem upsert_grn_twice_replaces_items (db : DB) (orderId : String)
    (h1 h2 : GrnHeader) (items1 items2 : List InsertGrnItem) (gid1 gid2 : String)
    (rb1 rb2 : Option String) (nt1 nt2 : Option String) (t1 t2 : Nat)
    (hone : (grnsForOrder db.grns orderId).length ≤ 1) :
    ∃ g, grnsForOrder ((upsertOrderApprovalWithGrn
          (upsertOrderApprovalWithGrn db orderId h1 items1 gid1 rb1 nt1 t1).1
          orderId h2 items2 gid2 rb2 nt2 t2).1).grns orderId = [g] ∧
      g.id = (upsertOrderApprovalWithGrn db orderId h1 items1 gid1 rb1 nt1 t1).2.id ∧
      (itemsOfGrn ((upsertOrderApprovalWithGrn
          (upsertOrderApprovalWithGrn db orderId h1 items1 gid1 rb1 nt1 t1).1
          orderId h2 items2 gid2 rb2 nt2 t2).1).grnItems g.id).length
        = items2.length := by
  cases hg : grnsForOrder db.grns orderId with
  | nil =>
    obtain ⟨hr1, hg1⟩ := upsert_insert_branch db orderId h1 items1 gid1 rb1 nt1 t1 hg
    obtain ⟨hr2, hg2, hit2⟩ := upsert_update_branch _ orderId h2 items2 gid2 rb2 nt2 t2 _ hg1
    refine ⟨_, hg2, ?_, ?_⟩
    · rw [hr1, applyGrnHeader_id]
    · rw [applyGrnHeader_id, hit2]
      simp
  | cons g0 tl =>
    have htl : tl = [] := by
      rw [hg] at hone
      simp only [List.length_cons] at hone
      have hlen : tl.length = 0 := by omega
      exact List.eq_nil_of_length_eq_zero hlen
    subst htl
    obtain ⟨hr1, hg1, hit1⟩ := upsert_update_branch db orderId h1 items1 gid1 rb1 nt1 t1 g0 hg
    obtain ⟨hr2, hg2, hit2⟩ := upsert_update_branch _ orderId h2 items2 gid2 rb2 nt2 t2 _ hg1
    refine ⟨_, hg2, ?_, ?_⟩
    · rw [hr1, applyGrnHeader_id, applyGrnHeader_id]
    · rw [applyGrnHeader_id, hit2]
      simp

theorem upsert_grn_twice_witness :
    (grnsForOrder emptyDB.grns ("ord1")).length ≤ 1 ∧
    (∃ g, grnsForOrder ((upsertOrderApprovalWithGrn
          (upsertOrderApprovalWithGrn emptyDB ("ord1")
            { vendorName := none, remarks := none }
            [{ partNo := none, quantity := some 1 }, { partNo := none, quantity := some 2 }]
            ("g1") none none 3).1
          ("ord1") { vendorName := some ("V"), remarks := none }
          [{ partNo := some ("x"), quantity := some 5 }]
          ("g2") none none 4).1).grns ("ord1") = [g] ∧
      g.id = (upsertOrderApprovalWithGrn emptyDB ("ord1")
            { vendorName := none, remarks := none }
            [{ partNo := none, quantity := some 1 }, { partNo := none, quantity := some 2 }]
            ("g1") none none 3).2.id ∧
      (itemsOfGrn ((upsertOrderApprovalWithGrn
          (upsertOrderApprovalWithGrn emptyDB ("ord1")
            { vendorName := none, remarks := none }
            [{ partNo := none, quantity := some 1 }, { partNo := none, quantity := some 2 }]
            ("g1") none none 3).1
          ("ord1") { vendorName := some ("V"), remarks := none }
          [{ partNo := some ("x"), quantity := some 5 }]
          ("g2") none none 4).1).grnItems g.id).length
        = ([{ partNo := some ("x"), quantity := some 5 }] : List InsertGrnItem).length) :=
  ⟨by decide, upsert_grn_twice_replaces_items emptyDB ("ord1")
    { vendorName := none, remarks := none } { vendorName := some ("V"), remarks := none }
    [{ partNo := none, quantity := some 1 }, { partNo := none, quantity := some 2 }]
    [{ partNo := some ("x"), quantity := some 5 }]
    ("g1") ("g2") none none none none 3 4 (by decide)⟩

end StockManager
